import Mathlib

/-!
Shallow embedding of `src/scoring_functions.py` (generative molecular-design
scoring module): the three oracle adapters (`tanimoto`, `logP`,
`activity_model`), the `Worker` subprocess protocol, the `Multiprocessing`
and `Singleprocessing` dispatchers, and the factory `get_scoring_function`.

Chemistry (RDKit parsing, fingerprints, similarity, logP) is opaque external
functionality; it is abstracted as a `ChemOracle` record of functions, and
theorems quantify over it.  Scores are modelled as rationals; machine floats
do not enter any claim's arithmetic.  Python exceptions are modelled with
`Except PyError`.
-/

/-- Values that can be passed as keyword-argument overrides to the factory
(`**kwargs` of `get_scoring_function`). -/
inductive PyVal where
  | num (q : Rat)
  | str (s : String)
deriving DecidableEq

/-- Python exceptions that the embedded code can raise. -/
inductive PyError where
  | indexError
  | valueError (msg : String)
  | attributeError
  | argumentError
  | typeError
  | runtimeError (msg : String)
deriving DecidableEq

/-- Python `s.lstrip(chars)`: removes the maximal leading run of characters
that belong to the character SET of `chars` (not the prefix `chars`). -/
def pyLstrip (s chars : String) : String :=
  String.mk (s.data.dropWhile (fun c => c ∈ chars.data))

/-- Value of a digit string read in base 10. -/
def digitsToNat (ds : List Char) : Nat :=
  ds.foldl (fun n c => 10 * n + (c.toNat - 48)) 0

/-- Python `float(s)` on simple unsigned decimal literals
(`"95"`, `"1.0"`, `".0"`, `"1."`), as the exact rational
`intpart + fracpart / 10 ^ len(fracpart)`; `none` models `ValueError`
(for example `float("")`).  Signs, exponents and `inf`/`nan` never occur
in the strings the worker builds, so they are not modelled. -/
def pyFloat (s : String) : Option Rat :=
  let p := s.data.span (fun c => c.isDigit)
  match p.2 with
  | [] => if p.1 = [] then none else some (mkRat (digitsToNat p.1) 1)
  | '.' :: frac =>
      if frac.all (fun c => c.isDigit) ∧ (p.1 ≠ [] ∨ frac ≠ []) then
        some (mkRat (digitsToNat p.1 * 10 ^ frac.length + digitsToNat frac) (10 ^ frac.length))
      else none
  | _ => none

/-- The opaque chemistry layer (RDKit), out of scope per the spec: molecule
parsing, Morgan fingerprints, Tanimoto similarity, logP, and the nonzero
elements of a count fingerprint.  `Mol` and `FP` are opaque carrier types. -/
structure ChemOracle (Mol FP : Type) where
  molFromSmiles : String → Option Mol
  morganFingerprint : Mol → Nat → FP
  tanimotoSimilarity : FP → FP → Rat
  molLogP : Mol → Rat
  nonzeroElements : FP → List (Nat × Int)

/-- The fixed reference-structure catalog of `tanimoto.__init__`. -/
def structures : List (String × String) :=
  [("Celebrex", "C1(S(N)(=O)=O)=CC=C(N2C(C3=CC=C(C)C=C3)=CC(C(F)(F)F)=N2)C=C1"),
   ("Osimertinib", "CN1C=C(C2=CC=CC=C21)C3=NC(=NC=C3)NC4=C(C=C(C(=C4)NC(=O)C=C)N(C)CCN(C)C)OC"),
   ("Fexofenadine", "CC(C)(C1=CC=C(C=C1)C(CCCN2CCC(CC2)C(C3=CC=CC=C3)(C4=CC=CC=C4)O)O)C(=O)O"),
   ("Ranolazine", "CC1=C(C(=CC=C1)C)NC(=O)CN2CCN(CC2)CC(COC3=CC=CC=C3OC)O"),
   ("Perindopril", "CCCC(C(=O)O)NC(C)C(=O)N1C2CCCCC2CC1C(=O)O"),
   ("Amlodipine", "CCOC(=O)C1=C(NC(=C(C1C2=CC=CC=C2Cl)C(=O)OC)C)COCCN"),
   ("Sitagliptin", "C1CN2C(=NN=C2C(F)(F)F)CN1C(=O)CC(CC3=CC(=C(C=C3F)F)F)N"),
   ("Zaleplon", "CCN(C1=CC=CC(=C1)C2=CC=NC3=C(C=NN23)C#N)C(=O)C")]

/-- Python `structures.get(query_structure)` (dict lookup, `None` on miss). -/
def structuresGet (query_structure : String) : Option String :=
  (structures.find? (fun p => p.1 = query_structure)).map (fun p => p.2)

/-- Instance state of the `tanimoto` adapter after `__init__`: the query
fingerprint (`none` when the attribute was never assigned, i.e. the catalog
lookup missed) and the class-level ceiling `k`. -/
structure TanimotoState (FP : Type) where
  query_fp : Option FP
  k : Rat
deriving DecidableEq

/-- `tanimoto.__init__(query_structure)`: looks the name up in the catalog;
on a hit, parses it and stores the Morgan fingerprint (radius 2); on a miss
it only prints a message, leaving `query_fp` unassigned.  Parsing failure of
a catalog entry would make `GetMorganFingerprint(None, ...)` raise, modelled
as `argumentError`. -/
def tanimoto_init {Mol FP : Type} (C : ChemOracle Mol FP) (k : Rat)
    (query_structure : String) : Except PyError (TanimotoState FP) :=
  match structuresGet query_structure with
  | some qs =>
      match C.molFromSmiles qs with
      | some m => .ok ⟨some (C.morganFingerprint m 2), k⟩
      | none => .error .argumentError
  | none => .ok ⟨none, k⟩

/-- Score of one parsed molecule in `tanimoto.__call__`:
`min(TanimotoSimilarity(query_fp, fp), k) / k`. -/
def tanimoto_score {Mol FP : Type} (C : ChemOracle Mol FP) (q : FP) (k : Rat)
    (m : Mol) : Rat :=
  min (C.tanimotoSimilarity q (C.morganFingerprint m 2)) k / k

/-- Loop body of `tanimoto.__call__` over the parsed molecule list: a parsed
molecule reads `self.query_fp` (raising `AttributeError` when it was never
assigned) and appends its score; an unparsable entry appends `0.0`. -/
def tanimoto_go {Mol FP : Type} (C : ChemOracle Mol FP) (st : TanimotoState FP) :
    List (Option Mol) → Except PyError (List Rat)
  | [] => .ok []
  | none :: rest => (tanimoto_go C st rest).map (fun r => 0 :: r)
  | some m :: rest =>
      match st.query_fp with
      | none => .error .attributeError
      | some q => (tanimoto_go C st rest).map (fun r => tanimoto_score C q st.k m :: r)

/-- `tanimoto.__call__(smiles)`: parse every descriptor, then score each. -/
def tanimoto_call {Mol FP : Type} (C : ChemOracle Mol FP) (st : TanimotoState FP)
    (smiles : List String) : Except PyError (List Rat) :=
  tanimoto_go C st (smiles.map C.molFromSmiles)

/-- Score of one parsed molecule in `logP.__call__`: 1.0 iff logP lies in
the closed interval `[0, 3]`. -/
def logP_score {Mol FP : Type} (C : ChemOracle Mol FP) (m : Mol) : Rat :=
  if 0 ≤ C.molLogP m ∧ C.molLogP m ≤ 3 then 1 else 0

/-- `logP.__call__(smiles)`: parse every descriptor; a parsed molecule scores
by the interval test, an unparsable one scores `0.0`. -/
def logP_call {Mol FP : Type} (C : ChemOracle Mol FP) (smiles : List String) :
    List Rat :=
  (smiles.map C.molFromSmiles).map
    (fun om => match om with
      | some m => logP_score C m
      | none => 0)

/-- `activity_model.fingerprints_from_mol`: fold the nonzero elements of the
radius-3 count fingerprint into a width-2048 count vector (`idx % 2048`,
accumulating `+= v`). -/
def fingerprints_from_mol (nonzero : List (Nat × Int)) : List Int :=
  nonzero.foldl
    (fun nfp p => nfp.set (p.1 % 2048) (nfp.getD (p.1 % 2048) 0 + p.2))
    (List.replicate 2048 0)

/-- `activity_model.__call__(smile)` with the loaded classifier abstracted as
`predictProbaPos` (positive-class probability of a feature vector): a parsed
molecule is featurized and classified; an unparsable one returns `0.0`. -/
def activity_model_call {Mol FP : Type} (C : ChemOracle Mol FP)
    (predictProbaPos : List Int → Rat) (smile : String) : Rat :=
  match C.molFromSmiles smile with
  | some m =>
      predictProbaPos (fingerprints_from_mol (C.nonzeroElements (C.morganFingerprint m 3)))
  | none => 0

/-- What the worker's `pexpect` exchange can observe for one sent SMILES:
either a response line from the subprocess, or no output within the timeout
bound. -/
inductive WorkerResp where
  | line (t : String)
  | timeout
deriving DecidableEq

/-- Result of `proc.expect([score_pattern, "None", pexpect.TIMEOUT])`:
index 0 with the matched text (`proc.after`), index 1 (the unscorable
sentinel), or index 2 (timeout). -/
inductive ExRes where
  | m0 (after : String)
  | m1
  | m2
deriving DecidableEq

/-- First alternative of the worker's score pattern,
`re.escape(smile) + " 1\.0+"`, tried at the current position: the literal
smile, a space, `1.`, then a greedy nonempty run of `0`s.  Returns the
matched text. -/
def matchA (smile cs : List Char) : Option (List Char) :=
  let pat := smile ++ [' ', '1', '.']
  if pat.isPrefixOf cs then
    let zeros := (cs.drop pat.length).takeWhile (fun c => c = '0')
    if zeros = [] then none else some (pat ++ zeros)
  else none

/-- Second alternative of the score pattern, `[0]\.[0-9]+`, tried at the
current position: `0.` then a greedy nonempty digit run. -/
def matchB (cs : List Char) : Option (List Char) :=
  match cs with
  | '0' :: '.' :: rest =>
      let ds := rest.takeWhile (fun c => c.isDigit)
      if ds = [] then none else some ('0' :: '.' :: ds)
  | _ => none

/-- Leftmost match of the score pattern in the buffer: at each position the
first alternative is tried before the second, as Python's `re` does.
Returns the match position and the matched text. -/
def searchPat (smile : List Char) : List Char → Nat → Option (Nat × List Char)
  | [], _ => none
  | c :: rest, i =>
      match matchA smile (c :: rest) with
      | some m => some (i, m)
      | none =>
          match matchB (c :: rest) with
          | some m => some (i, m)
          | none => searchPat smile rest (i + 1)

/-- Position of the leftmost occurrence of the (nonempty) literal `pat` in
the buffer. -/
def searchSub (pat : List Char) : List Char → Nat → Option Nat
  | [], _ => none
  | c :: rest, i =>
      if pat.isPrefixOf (c :: rest) then some i else searchSub pat rest (i + 1)

/-- `proc.expect([re.escape(smile) + " 1\.0+|[0]\.[0-9]+", "None",
pexpect.TIMEOUT])` on one exchange: with a response line, the pattern whose
match starts earliest wins (ties go to the lower pattern index); a line
matching neither pattern leaves `expect` waiting until the timeout. -/
def expectOutcome (smile : String) (resp : WorkerResp) : ExRes :=
  match resp with
  | .timeout => .m2
  | .line t =>
      match searchPat smile.data t.data 0, searchSub "None".data t.data 0 with
      | some im, some j => if im.1 ≤ j then .m0 (String.mk im.2) else .m1
      | some im, none => .m0 (String.mk im.2)
      | none, some _ => .m1
      | none, none => .m2

/-- `Worker.__call__(smile, index, result_list)`: on match index 0 the score
is `float(proc.after.lstrip(smile + " "))` (`lstrip` strips a character set;
`float("")` raises `ValueError`); on the sentinel or timeout the score is
`0.0`; the score is written at `index`. -/
def Worker_call (smile : String) (resp : WorkerResp) (index : Nat)
    (result_list : List Rat) : Except PyError (List Rat) :=
  match expectOutcome smile resp with
  | .m0 after =>
      match pyFloat (pyLstrip after (smile ++ " ")) with
      | some score => .ok (result_list.set index score)
      | none => .error (.valueError "could not convert string to float")
  | .m1 => .ok (result_list.set index 0)
  | .m2 => .ok (result_list.set index 0)

/-- The value `Worker.__call__` writes for one exchange, for executions in
which the float conversion does not raise (the `ValueError` path, which
kills the worker thread instead of writing, is modelled by `Worker_call`;
the `getD` default is never reached in the runs the theorems evaluate). -/
def workerScore (smile : String) (resp : WorkerResp) : Rat :=
  match expectOutcome smile resp with
  | .m0 after => (pyFloat (pyLstrip after (smile ++ " "))).getD 0
  | .m1 => 0
  | .m2 => 0

/-- Modelled from the spec: the worker subprocess script `./multiprocess.py`
is part of this repository but not under `src/`; per the spec its response
to one descriptor is one line `"<descriptor> <score>"`.  `fmt` renders the
oracle's score as Python prints the float (for the unit score, `"1.0"`). -/
def subprocessLine (oracle : String → Rat) (fmt : Rat → String) (s : String) :
    WorkerResp :=
  .line (s ++ " " ++ fmt (oracle s))

/-- State of the `Multiprocessing.__call__` loop: the remaining work list
(`smiles_copy`), the shared result buffer (`scores`), and the in-flight
assignments as (worker slot, descriptor, result index) — the running worker
threads, whose names are the worker slots. -/
structure MPState where
  smiles_copy : List String
  scores : List Rat
  inflight : List (Nat × String × Nat)
deriving DecidableEq

/-- Scheduler events of one parallel dispatch run: `round alive` is one
iteration of the while-loop body observing `alive` as the list of alive
worker slots; `complete w` is the worker thread named `w` finishing its
exchange and writing its score. -/
inductive Ev where
  | round (alive : List Nat)
  | complete (w : Nat)

/-- Entry state of `Multiprocessing.__call__`: `scores = [0, 0, ...]` of the
batch length, `smiles_copy` a copy of the input, no thread in flight. -/
def initState (smiles : List String) : MPState :=
  ⟨smiles, List.replicate smiles.length 0, []⟩

/-- One dispatch inside the for-loop over free workers: if work remains,
`smile = smiles_copy.pop()` (pops the last element) and
`idx = len(smiles_copy)` after the pop; the worker thread named `w` is
started on `(smile, idx, scores)`. -/
def dispatchOne (w : Nat) (s : MPState) : MPState :=
  match s.smiles_copy.getLast? with
  | none => s
  | some smile =>
      let rest := s.smiles_copy.dropLast
      ⟨rest, s.scores, (w, smile, rest.length) :: s.inflight⟩

/-- Remove the first in-flight entry of worker `w`, returning it and the
remaining list. -/
def removeFirst (w : Nat) :
    List (Nat × String × Nat) → Option ((Nat × String × Nat) × List (Nat × String × Nat))
  | [] => none
  | e :: rest =>
      if e.1 = w then some (e, rest)
      else
        match removeFirst w rest with
        | some er => some (er.1, e :: er.2)
        | none => none

/-- Completion of worker `w`'s thread: its in-flight exchange writes
`result_list[index] = score` — with the per-descriptor score value
abstracted as `oracle` — and the thread leaves `threading.enumerate()`. -/
def completeWorker (oracle : String → Rat) (w : Nat) (s : MPState) : MPState :=
  match removeFirst w s.inflight with
  | none => s
  | some er =>
      ⟨s.smiles_copy, s.scores.set er.1.2.2 (oracle er.1.2.1), er.2⟩

/-- One iteration of the `while smiles_copy:` body: when work remains, an
empty alive set raises `RuntimeError("All subprocesses are dead, exiting.")`;
otherwise the busy workers are those with a running thread, and one SMILES is
popped and dispatched for each free alive worker in order. -/
def mpIter (alive : List Nat) (s : MPState) : Except PyError MPState :=
  if s.smiles_copy.isEmpty then .ok s
  else if alive.isEmpty then
    .error (.runtimeError "All subprocesses are dead, exiting.")
  else
    let used := s.inflight.map (fun e => e.1)
    let free := alive.filter (fun i => decide (i ∉ used))
    .ok (free.foldl (fun st n => dispatchOne n st) s)

/-- Run of the dispatch loop over a schedule of events. -/
def mpGo (oracle : String → Rat) : List Ev → MPState → Except PyError MPState
  | [], s => .ok s
  | .round alive :: evs, s =>
      match mpIter alive s with
      | .error e => .error e
      | .ok s2 => mpGo oracle evs s2
  | .complete w :: evs, s => mpGo oracle evs (completeWorker oracle w s)

/-- The final join loop: every still-running worker thread is joined, so
every remaining in-flight exchange completes its write. -/
def mpFinish (oracle : String → Rat) (s : MPState) : List Rat :=
  s.inflight.foldl (fun sc e => sc.set e.2.2 (oracle e.2.1)) s.scores

/-- Outcome of `Multiprocessing.__call__` on a schedule: `ok scores` when the
loop drained the queue and returned, `dead` when the `RuntimeError` was
raised, `pending` when the schedule ends with the loop still running (no
return happens on such a schedule). -/
inductive MPResult where
  | ok (scores : List Rat)
  | dead
  | pending
deriving DecidableEq

/-- `Multiprocessing.__call__(smiles)` under a scheduler: run the loop, and
on exit join all threads and return the score list (the Python code then
wraps it in `np.array(..., dtype=np.float32)`, a length- and order-preserving
conversion). -/
def Multiprocessing_call (oracle : String → Rat) (smiles : List String)
    (sched : List Ev) : MPResult :=
  match mpGo oracle sched (initState smiles) with
  | .error _ => .dead
  | .ok s => if s.smiles_copy.isEmpty then .ok (mpFinish oracle s) else .pending

/-- `Singleprocessing.__call__(smiles)`: the in-process oracle instance is
called once per descriptor, in input order (then wrapped in
`np.array(..., dtype=np.float32)` as above). -/
def Singleprocessing_call (oracle : String → Rat) (smiles : List String) :
    List Rat :=
  smiles.map oracle

/-- The two scoring-function classes registered in `get_scoring_function`
(`logP` exists in the module but is not in this list). -/
inductive SFClass where
  | tanimoto
  | activity_model
deriving DecidableEq

/-- `f.__name__` of a registered class. -/
def SFClass.pyName : SFClass → String
  | .tanimoto => "tanimoto"
  | .activity_model => "activity_model"

/-- The class attribute `kwargs` listing recognized configuration keys. -/
def SFClass.allowedKwargs : SFClass → List String
  | .tanimoto => ["k", "query_structure"]
  | .activity_model => ["clf_path"]

/-- The class-level configuration attributes the factory can override
(`tanimoto.k`, `tanimoto.query_structure` — initially absent, its definition
is commented out — and `activity_model.clf_path`). -/
structure ClassConfig where
  tanimoto_k : PyVal
  tanimoto_query_structure : Option PyVal
  activity_model_clf_path : PyVal
deriving DecidableEq

/-- The class-attribute values as written in the source. -/
def defaultConfig : ClassConfig :=
  ⟨.num (7 / 10), none, .str "data/clf.pkl"⟩

/-- `setattr(scoring_function_class, k, v)` for the recognized keys. -/
def setAttr (cls : SFClass) (cfg : ClassConfig) (key : String) (v : PyVal) :
    ClassConfig :=
  match cls with
  | .tanimoto =>
      if key = "k" then { cfg with tanimoto_k := v }
      else if key = "query_structure" then { cfg with tanimoto_query_structure := some v }
      else cfg
  | .activity_model =>
      if key = "clf_path" then { cfg with activity_model_clf_path := v } else cfg

/-- The kwargs loop of `get_scoring_function`: each item whose key is in the
class's `kwargs` list is set on the class; any other item is skipped. -/
def applyKwargs (cls : SFClass) (kwargs : List (String × PyVal)) (cfg : ClassConfig) :
    ClassConfig :=
  kwargs.foldl
    (fun c kv => if kv.1 ∈ cls.allowedKwargs then setAttr cls c kv.1 kv.2 else c) cfg

/-- What the factory returns: a single-process dispatcher holding the adapter
instance's class, or a parallel dispatcher holding the adapter name and pool
size; both carry the class configuration in force at construction. -/
inductive Dispatcher where
  | single (cls : SFClass) (cfg : ClassConfig)
  | multi (name : String) (num_processes : Option Nat) (cfg : ClassConfig)
deriving DecidableEq

/-- `Singleprocessing.__init__(scoring_function)` calls `scoring_function()`
with no arguments: for `tanimoto` this raises `TypeError` (its `__init__`
requires the positional `query_structure`); for `activity_model` it loads
the pickled classifier (simple I/O, out of scope per the spec, modelled as
succeeding). -/
def Singleprocessing_init (cls : SFClass) (cfg : ClassConfig) :
    Except PyError Dispatcher :=
  match cls with
  | .tanimoto => .error .typeError
  | .activity_model => .ok (.single .activity_model cfg)

/-- The registered class list `[tanimoto, activity_model]`. -/
def scoring_function_classes : List SFClass := [.tanimoto, .activity_model]

/-- `get_scoring_function(scoring_function, num_processes, **kwargs)`,
with the source's statement order: the selection
`[f for f in scoring_function_classes if f.__name__ == scoring_function][0]`
runs first (raising `IndexError` on an empty selection), then the
membership check that would raise the `ValueError`, then the kwargs loop,
then dispatcher construction. -/
def get_scoring_function (name : String) (num_processes : Option Nat)
    (kwargs : List (String × PyVal)) : Except PyError Dispatcher :=
  let names := scoring_function_classes.map SFClass.pyName
  match scoring_function_classes.filter (fun f => f.pyName = name) with
  | [] => .error .indexError
  | cls :: _ =>
      if name ∈ names then
        let cfg := applyKwargs cls kwargs defaultConfig
        if num_processes = some 0 then Singleprocessing_init cls cfg
        else .ok (.multi name num_processes cfg)
      else .error (.valueError "Scoring function must be one of [tanimoto, activity_model]")

/-- Invariant of the dispatch loop, with `m := smiles_copy.length`: the work
list is always the length-`m` initial segment of the input (pops take the
last element); every in-flight assignment `(w, smile, idx)` has
`m ≤ idx < n` and carries exactly the descriptor `smiles[idx]`; and every
already-dispatched slot with no in-flight writer holds its oracle score. -/
structure MPInv (oracle : String → Rat) (smiles : List String) (s : MPState) : Prop where
  scores_len : s.scores.length = smiles.length
  copy_take : s.smiles_copy = smiles.take s.smiles_copy.length
  copy_le : s.smiles_copy.length ≤ smiles.length
  inflight_lb : ∀ e ∈ s.inflight, s.smiles_copy.length ≤ e.2.2
  inflight_ub : ∀ e ∈ s.inflight, e.2.2 < smiles.length
  inflight_bind : ∀ e ∈ s.inflight, smiles[e.2.2]? = some e.2.1
  done_ok : ∀ i : Nat, s.smiles_copy.length ≤ i → i < smiles.length →
    (∀ e ∈ s.inflight, e.2.2 ≠ i) → s.scores[i]? = (smiles[i]?).map oracle

theorem mpInv_init (oracle : String → Rat) (smiles : List String) :
    MPInv oracle smiles (initState smiles) := by
  refine ⟨?_, ?_, ?_, ?_, ?_, ?_, ?_⟩
  · simp [initState]
  · simp [initState]
  · simp [initState]
  · simp [initState]
  · simp [initState]
  · simp [initState]
  · intro i h1 h2 _
    exact absurd h2 (Nat.not_lt.mpr h1)

theorem mpInv_dispatchOne {oracle : String → Rat} {smiles : List String}
    {s : MPState} (h : MPInv oracle smiles s) (w : Nat) :
    MPInv oracle smiles (dispatchOne w s) := by
  cases hL : s.smiles_copy.getLast? with
  | none =>
      have key : dispatchOne w s = s := by
        unfold dispatchOne
        rw [hL]
      rw [key]
      exact h
  | some smile =>
    have key : dispatchOne w s =
        ⟨s.smiles_copy.dropLast, s.scores,
          (w, smile, s.smiles_copy.dropLast.length) :: s.inflight⟩ := by
      unfold dispatchOne
      rw [hL]
    have hne : s.smiles_copy ≠ [] := by
      intro he
      rw [he] at hL
      exact Option.noConfusion hL
    set m := s.smiles_copy.length with hmdef
    have hm1 : 1 ≤ m := by
      cases hc : s.smiles_copy with
      | nil => exact absurd hc hne
      | cons a t => rw [hmdef, hc]; simp
    have hmle : m ≤ smiles.length := h.copy_le
    have hcopy : s.smiles_copy = smiles.take m := h.copy_take
    have hlen : (smiles.take m).length = m := by
      rw [List.length_take]
      exact Nat.min_eq_left hmle
    have hrest : s.smiles_copy.dropLast = smiles.take (m - 1) := by
      rw [hcopy, List.dropLast_eq_take, hlen, List.take_take,
        Nat.min_eq_left (Nat.sub_le _ _)]
    have hrlen : s.smiles_copy.dropLast.length = m - 1 := by
      rw [hrest, List.length_take]
      exact Nat.min_eq_left (by omega)
    have hsmile : smiles[m - 1]? = some smile := by
      have h1 := List.getLast?_eq_getElem? s.smiles_copy
      rw [hL, ← hmdef, hcopy,
        List.getElem?_take_of_lt (Nat.sub_lt hm1 Nat.one_pos)] at h1
      exact h1.symm
    rw [key]
    refine ⟨?_, ?_, ?_, ?_, ?_, ?_, ?_⟩
    · exact h.scores_len
    · rw [hrlen]
      exact hrest
    · rw [hrlen]
      omega
    · intro e he
      rcases List.mem_cons.mp he with he | he
      · subst he
        exact Nat.le_refl _
      · have := h.inflight_lb e he
        rw [hrlen]
        omega
    · intro e he
      rcases List.mem_cons.mp he with he | he
      · subst he
        have hlt : s.smiles_copy.dropLast.length < smiles.length := by
          rw [hrlen]
          omega
        exact hlt
      · exact h.inflight_ub e he
    · intro e he
      rcases List.mem_cons.mp he with he | he
      · subst he
        rw [hrlen]
        exact hsmile
      · exact h.inflight_bind e he
    · intro i hi1 hi2 hi3
      have hnew : m - 1 ≠ i := by
        have := hi3 (w, smile, s.smiles_copy.dropLast.length) (List.mem_cons_self _ _)
        rw [hrlen] at this
        exact this
      have hi1' : m ≤ i := by
        rw [hrlen] at hi1
        omega
      exact h.done_ok i hi1' hi2 (fun e he => hi3 e (List.mem_cons_of_mem _ he))

theorem mpInv_foldDispatch {oracle : String → Rat} {smiles : List String} :
    ∀ (free : List Nat) {s : MPState}, MPInv oracle smiles s →
      MPInv oracle smiles (free.foldl (fun st n => dispatchOne n st) s)
  | [], _, h => h
  | a :: t, s, h => by
      have h1 := mpInv_dispatchOne h a
      simpa using mpInv_foldDispatch t h1

theorem mpInv_mpIter {oracle : String → Rat} {smiles : List String}
    {alive : List Nat} {s s2 : MPState} (hok : mpIter alive s = .ok s2)
    (h : MPInv oracle smiles s) : MPInv oracle smiles s2 := by
  unfold mpIter at hok
  by_cases h1 : s.smiles_copy.isEmpty
  · rw [if_pos h1] at hok
    cases hok
    exact h
  · rw [if_neg h1] at hok
    by_cases h2 : alive.isEmpty
    · rw [if_pos h2] at hok
      exact Except.noConfusion hok
    · rw [if_neg h2] at hok
      cases hok
      exact mpInv_foldDispatch _ h

theorem removeFirst_mem {w : Nat} :
    ∀ {l : List (Nat × String × Nat)} {e : Nat × String × Nat}
      {rest : List (Nat × String × Nat)},
      removeFirst w l = some (e, rest) → e ∈ l
  | [], _, _, h => by exact Option.noConfusion h
  | a :: t, e, rest, h => by
      unfold removeFirst at h
      by_cases ha : a.1 = w
      · rw [if_pos ha] at h
        cases h
        exact List.mem_cons_self _ _
      · rw [if_neg ha] at h
        cases hr : removeFirst w t with
        | none =>
            rw [hr] at h
            exact Option.noConfusion h
        | some er =>
            rw [hr] at h
            cases h
            exact List.mem_cons_of_mem _ (removeFirst_mem (by rw [hr]))

theorem removeFirst_split {w : Nat} :
    ∀ {l : List (Nat × String × Nat)} {e : Nat × String × Nat}
      {rest : List (Nat × String × Nat)},
      removeFirst w l = some (e, rest) →
      ∀ x ∈ l, x = e ∨ x ∈ rest
  | [], _, _, h => by exact Option.noConfusion h
  | a :: t, e, rest, h => by
      unfold removeFirst at h
      by_cases ha : a.1 = w
      · rw [if_pos ha] at h
        cases h
        intro x hx
        rcases List.mem_cons.mp hx with hx | hx
        · exact Or.inl hx
        · exact Or.inr hx
      · rw [if_neg ha] at h
        cases hr : removeFirst w t with
        | none =>
            rw [hr] at h
            exact Option.noConfusion h
        | some er =>
            rw [hr] at h
            cases h
            intro x hx
            rcases List.mem_cons.mp hx with hx | hx
            · exact Or.inr (hx ▸ List.mem_cons_self _ _)
            · rcases removeFirst_split (l := t) (by rw [hr]) x hx with hx2 | hx2
              · exact Or.inl hx2
              · exact Or.inr (List.mem_cons_of_mem _ hx2)

theorem removeFirst_rest_mem {w : Nat} :
    ∀ {l : List (Nat × String × Nat)} {e : Nat × String × Nat}
      {rest : List (Nat × String × Nat)},
      removeFirst w l = some (e, rest) →
      ∀ x ∈ rest, x ∈ l
  | [], _, _, h => by exact Option.noConfusion h
  | a :: t, e, rest, h => by
      unfold removeFirst at h
      by_cases ha : a.1 = w
      · rw [if_pos ha] at h
        cases h
        intro x hx
        exact List.mem_cons_of_mem _ hx
      · rw [if_neg ha] at h
        cases hr : removeFirst w t with
        | none =>
            rw [hr] at h
            exact Option.noConfusion h
        | some er =>
            rw [hr] at h
            cases h
            intro x hx
            rcases List.mem_cons.mp hx with hx | hx
            · exact hx ▸ List.mem_cons_self _ _
            · exact List.mem_cons_of_mem _ (removeFirst_rest_mem (l := t) (by rw [hr]) x hx)

theorem mpInv_completeWorker {oracle : String → Rat} {smiles : List String}
    {s : MPState} (h : MPInv oracle smiles s) (w : Nat) :
    MPInv oracle smiles (completeWorker oracle w s) := by
  cases hr : removeFirst w s.inflight with
  | none =>
      have key : completeWorker oracle w s = s := by
        unfold completeWorker
        rw [hr]
      rw [key]
      exact h
  | some er =>
      have key : completeWorker oracle w s =
          ⟨s.smiles_copy, s.scores.set er.1.2.2 (oracle er.1.2.1), er.2⟩ := by
        unfold completeWorker
        rw [hr]
      have hmem : er.1 ∈ s.inflight := removeFirst_mem (by rw [hr])
      have hub : er.1.2.2 < smiles.length := h.inflight_ub er.1 hmem
      have hbind : smiles[er.1.2.2]? = some er.1.2.1 := h.inflight_bind er.1 hmem
      rw [key]
      refine ⟨?_, ?_, ?_, ?_, ?_, ?_, ?_⟩
      · rw [List.length_set]
        exact h.scores_len
      · exact h.copy_take
      · exact h.copy_le
      · exact fun e he => h.inflight_lb e (removeFirst_rest_mem (by rw [hr]) e he)
      · exact fun e he => h.inflight_ub e (removeFirst_rest_mem (by rw [hr]) e he)
      · exact fun e he => h.inflight_bind e (removeFirst_rest_mem (by rw [hr]) e he)
      · intro i hi1 hi2 hi3
        by_cases hieq : er.1.2.2 = i
        · subst hieq
          rw [List.getElem?_set_self (by rw [h.scores_len]; exact hub), hbind]
          rfl
        · rw [List.getElem?_set_ne hieq]
          refine h.done_ok i hi1 hi2 ?_
          intro e he
          rcases removeFirst_split (by rw [hr]) e he with he2 | he2
          · rw [he2]
            exact hieq
          · exact hi3 e he2

theorem mpInv_mpGo {oracle : String → Rat} {smiles : List String} :
    ∀ {sched : List Ev} {s s2 : MPState}, mpGo oracle sched s = .ok s2 →
      MPInv oracle smiles s → MPInv oracle smiles s2
  | [], s, s2, hok, h => by
      cases hok
      exact h
  | .round alive :: evs, s, s2, hok, h => by
      unfold mpGo at hok
      cases hit : mpIter alive s with
      | error e =>
          rw [hit] at hok
          exact Except.noConfusion hok
      | ok s3 =>
          rw [hit] at hok
          exact mpInv_mpGo hok (mpInv_mpIter hit h)
  | .complete w :: evs, s, s2, hok, h => by
      unfold mpGo at hok
      exact mpInv_mpGo hok (mpInv_completeWorker h w)

theorem mpFinish_fold_spec {oracle : String → Rat} {smiles : List String} :
    ∀ (fl : List (Nat × String × Nat)) (scores : List Rat),
      (∀ e ∈ fl, e.2.2 < smiles.length) →
      (∀ e ∈ fl, smiles[e.2.2]? = some e.2.1) →
      scores.length = smiles.length →
      (∀ i : Nat, i < smiles.length → (∀ e ∈ fl, e.2.2 ≠ i) →
        scores[i]? = (smiles[i]?).map oracle) →
      ∀ i : Nat, i < smiles.length →
        (fl.foldl (fun sc e => sc.set e.2.2 (oracle e.2.1)) scores)[i]? =
          (smiles[i]?).map oracle
  | [], scores, _, _, _, hdone, i, hi => hdone i hi (by intro e he; cases he)
  | e :: fl, scores, hub, hbind, hlen, hdone, i, hi => by
      have hub' : ∀ x ∈ fl, x.2.2 < smiles.length :=
        fun x hx => hub x (List.mem_cons_of_mem _ hx)
      have hbind' : ∀ x ∈ fl, smiles[x.2.2]? = some x.2.1 :=
        fun x hx => hbind x (List.mem_cons_of_mem _ hx)
      have hlen' : (scores.set e.2.2 (oracle e.2.1)).length = smiles.length := by
        rw [List.length_set]
        exact hlen
      have hdone' : ∀ j : Nat, j < smiles.length → (∀ x ∈ fl, x.2.2 ≠ j) →
          (scores.set e.2.2 (oracle e.2.1))[j]? = (smiles[j]?).map oracle := by
        intro j hj hnot
        by_cases hje : e.2.2 = j
        · subst hje
          rw [List.getElem?_set_self (by rw [hlen]; exact hub e (List.mem_cons_self _ _))]
          rw [hbind e (List.mem_cons_self _ _)]
          rfl
        · rw [List.getElem?_set_ne hje]
          refine hdone j hj ?_
          intro x hx
          rcases List.mem_cons.mp hx with hx | hx
          · rw [hx]
            exact hje
          · exact hnot x hx
      simpa using mpFinish_fold_spec fl (scores.set e.2.2 (oracle e.2.1))
        hub' hbind' hlen' hdone' i hi

theorem mpFinish_fold_length (oracle : String → Rat) :
    ∀ (fl : List (Nat × String × Nat)) (scores : List Rat),
      (fl.foldl (fun sc e => sc.set e.2.2 (oracle e.2.1)) scores).length =
        scores.length
  | [], _ => rfl
  | e :: fl, scores => by
      have := mpFinish_fold_length oracle fl (scores.set e.2.2 (oracle e.2.1))
      simpa [List.length_set] using this

/-- The central correctness fact of the parallel dispatcher: any schedule on
which `Multiprocessing.__call__` returns produces exactly the per-descriptor
values in input order. -/
theorem Multiprocessing_call_ok_eq {oracle : String → Rat} {smiles : List String}
    {sched : List Ev} {scores : List Rat}
    (h : Multiprocessing_call oracle smiles sched = .ok scores) :
    scores = smiles.map oracle := by
  unfold Multiprocessing_call at h
  cases hgo : mpGo oracle sched (initState smiles) with
  | error e =>
      rw [hgo] at h
      exact MPResult.noConfusion h
  | ok s =>
      rw [hgo] at h
      dsimp only at h
      by_cases hemp : s.smiles_copy.isEmpty
      · rw [if_pos hemp] at h
        have hsc : mpFinish oracle s = scores := by
          cases h
          rfl
        have hinv : MPInv oracle smiles s := mpInv_mpGo hgo (mpInv_init oracle smiles)
        have hm0 : s.smiles_copy.length = 0 := by
          rw [List.isEmpty_iff] at hemp
          rw [hemp]
          rfl
        have hspec : ∀ i : Nat, i < smiles.length →
            (mpFinish oracle s)[i]? = (smiles[i]?).map oracle := by
          intro i hi
          refine mpFinish_fold_spec s.inflight s.scores hinv.inflight_ub
            hinv.inflight_bind hinv.scores_len ?_ i hi
          intro j hj hnot
          exact hinv.done_ok j (by omega) hj hnot
        have hlen : (mpFinish oracle s).length = smiles.length := by
          unfold mpFinish
          rw [mpFinish_fold_length]
          exact hinv.scores_len
        rw [← hsc]
        refine List.ext_getElem? ?_
        intro i
        by_cases hi : i < smiles.length
        · rw [hspec i hi, List.getElem?_map]
        · rw [List.getElem?_eq_none (by rw [hlen]; omega),
            List.getElem?_eq_none (by rw [List.length_map]; omega)]
      · rw [if_neg hemp] at h
        exact MPResult.noConfusion h

theorem mpGo_cons_round (oracle : String → Rat) (alive : List Nat)
    (evs : List Ev) (s : MPState) :
    mpGo oracle (Ev.round alive :: evs) s =
      match mpIter alive s with
      | Except.error e => Except.error e
      | Except.ok s2 => mpGo oracle evs s2 := rfl

theorem mpGo_cons_complete (oracle : String → Rat) (w : Nat)
    (evs : List Ev) (s : MPState) :
    mpGo oracle (Ev.complete w :: evs) s =
      mpGo oracle evs (completeWorker oracle w s) := rfl

/-- Running the loop on a concatenated schedule: the second part continues
from where the first part ended, and an error in the first part is final. -/
theorem mpGo_append (oracle : String → Rat) :
    ∀ (evs1 evs2 : List Ev) (s : MPState),
      mpGo oracle (evs1 ++ evs2) s =
        match mpGo oracle evs1 s with
        | Except.ok s2 => mpGo oracle evs2 s2
        | Except.error e => Except.error e
  | [], evs2, s => rfl
  | Ev.round alive :: evs1, evs2, s => by
      rw [List.cons_append, mpGo_cons_round, mpGo_cons_round]
      cases mpIter alive s with
      | error e => rfl
      | ok s2 => exact mpGo_append oracle evs1 evs2 s2
  | Ev.complete w :: evs1, evs2, s => by
      rw [List.cons_append, mpGo_cons_complete, mpGo_cons_complete]
      exact mpGo_append oracle evs1 evs2 (completeWorker oracle w s)

/-- Per-entry score of `tanimoto.__call__` when the query fingerprint is
present: the capped-and-rescaled similarity for a parsed molecule, `0.0` for
an unparsable one. -/
def tanimoto_mol_score {Mol FP : Type} (C : ChemOracle Mol FP) (q : FP) (k : Rat) :
    Option Mol → Rat
  | some m => tanimoto_score C q k m
  | none => 0

theorem tanimoto_go_some {Mol FP : Type} (C : ChemOracle Mol FP) (q : FP) (k : Rat) :
    ∀ mols : List (Option Mol),
      tanimoto_go C ⟨some q, k⟩ mols = .ok (mols.map (tanimoto_mol_score C q k))
  | [] => rfl
  | none :: rest => by
      show (tanimoto_go C ⟨some q, k⟩ rest).map (fun r => 0 :: r) = _
      rw [tanimoto_go_some C q k rest]
      rfl
  | some m :: rest => by
      show (tanimoto_go C ⟨some q, k⟩ rest).map
        (fun r => tanimoto_score C q k m :: r) = _
      rw [tanimoto_go_some C q k rest]
      rfl

theorem tanimoto_go_err {Mol FP : Type} (C : ChemOracle Mol FP) (k : Rat) :
    ∀ mols : List (Option Mol), (∃ om ∈ mols, om.isSome = true) →
      tanimoto_go C ⟨none, k⟩ mols = .error .attributeError
  | [], h => by
      rcases h with ⟨om, hm, _⟩
      cases hm
  | none :: rest, h => by
      rcases h with ⟨om, hm, hsome⟩
      rcases List.mem_cons.mp hm with he | he
      · rw [he] at hsome
        cases hsome
      · show (tanimoto_go C ⟨none, k⟩ rest).map (fun r => 0 :: r) = _
        rw [tanimoto_go_err C k rest ⟨om, he, hsome⟩]
        rfl
  | some m :: rest, h => rfl

/-- C1: for every input batch, both the parallel dispatcher
(`Multiprocessing.__call__`, on any schedule on which it returns) and the
single-process dispatcher (`Singleprocessing.__call__`) return a score array
whose length equals the length of the input batch. -/
theorem claim_dispatch_length (oracle : String → Rat) (smiles : List String)
    (sched : List Ev) (scores : List Rat)
    (h : Multiprocessing_call oracle smiles sched = .ok scores) :
    scores.length = smiles.length ∧
    (Singleprocessing_call oracle smiles).length = smiles.length := by
  constructor
  · rw [Multiprocessing_call_ok_eq h, List.length_map]
  · rw [Singleprocessing_call, List.length_map]

theorem claim_dispatch_length_witness :
    Multiprocessing_call (fun s => if s = "x" then 3 else 4) ["x", "y", "z"]
      [Ev.round [0, 1, 2], Ev.complete 0, Ev.complete 1, Ev.complete 2] =
        MPResult.ok [3, 4, 4] ∧
    ([3, 4, 4] : List Rat).length = (["x", "y", "z"] : List String).length ∧
    (Singleprocessing_call (fun s => if s = "x" then 3 else 4)
      ["x", "y", "z"]).length = (["x", "y", "z"] : List String).length := by
  refine ⟨rfl, ?_, ?_⟩
  · exact (claim_dispatch_length (fun s => if s = "x" then 3 else 4) ["x", "y", "z"]
      [Ev.round [0, 1, 2], Ev.complete 0, Ev.complete 1, Ev.complete 2] [3, 4, 4] rfl).1
  · exact (claim_dispatch_length (fun s => if s = "x" then 3 else 4) ["x", "y", "z"]
      [Ev.round [0, 1, 2], Ev.complete 0, Ev.complete 1, Ev.complete 2] [3, 4, 4] rfl).2

/-- C2: in the parallel dispatcher, the result index bound to a descriptor at
dequeue time (`idx = len(smiles_copy)` after the pop from the end) is that
descriptor's position in the original batch, so on every schedule on which
the call returns — whatever the worker completion order — the returned array
is exactly the per-descriptor value function mapped over the input in input
order: `scores[i]` is the score of `descriptors[i]`. -/
theorem claim_result_order (oracle : String → Rat) (smiles : List String)
    (sched : List Ev) (scores : List Rat)
    (h : Multiprocessing_call oracle smiles sched = .ok scores) :
    scores = smiles.map oracle :=
  Multiprocessing_call_ok_eq h

theorem claim_result_order_witness :
    Multiprocessing_call (fun s => if s = "a" then 1 else 2) ["a", "b"]
      [Ev.round [0, 1], Ev.complete 0, Ev.complete 1] = MPResult.ok [1, 2] ∧
    ([1, 2] : List Rat) = List.map (fun s => if s = "a" then 1 else 2) ["a", "b"] :=
  ⟨rfl, claim_result_order (fun s => if s = "a" then 1 else 2) ["a", "b"]
    [Ev.round [0, 1], Ev.complete 0, Ev.complete 1] [1, 2] rfl⟩

/-- C3: on any schedule that reaches a state where work remains undispatched
(`smiles_copy` nonempty) and then observes an empty alive-worker set, the
parallel dispatcher raises `RuntimeError("All subprocesses are dead,
exiting.")` — the run's outcome is `dead`, never an `ok` score array. -/
theorem claim_all_dead_abort (oracle : String → Rat) (smiles : List String)
    (pre post : List Ev) (s : MPState)
    (hgo : mpGo oracle pre (initState smiles) = .ok s)
    (hrem : s.smiles_copy ≠ []) :
    Multiprocessing_call oracle smiles (pre ++ Ev.round [] :: post) =
      MPResult.dead := by
  have hiter : mpIter [] s =
      .error (.runtimeError "All subprocesses are dead, exiting.") := by
    unfold mpIter
    rw [if_neg (by simp [List.isEmpty_iff, hrem])]
    simp [List.isEmpty_nil]
  unfold Multiprocessing_call
  rw [mpGo_append, hgo]
  dsimp only
  rw [mpGo_cons_round, hiter]

theorem claim_all_dead_abort_witness :
    mpGo (fun _ => (0 : Rat)) [] (initState ["a"]) = Except.ok (initState ["a"]) ∧
    (initState ["a"]).smiles_copy ≠ [] ∧
    Multiprocessing_call (fun _ => (0 : Rat)) ["a"]
      ([] ++ Ev.round [] :: []) = MPResult.dead := by
  refine ⟨rfl, by simp [initState], ?_⟩
  exact claim_all_dead_abort (fun _ => (0 : Rat)) ["a"] [] [] (initState ["a"])
    rfl (by simp [initState])

/-- C4: for a name outside the registered adapter set, `get_scoring_function`
does fail at factory time before any construction — but with `IndexError`
from the selection `[...][0]` on an empty list, not with the
`ValueError("Scoring function must be one of ...")`: the membership check
producing that `ValueError` sits after the selection and is unreachable, so
no input ever surfaces the `ValueError`. -/
theorem claim_factory_unknown_name :
    get_scoring_function "bogus" none [] = .error .indexError ∧
    get_scoring_function "bogus" (some 0) [("k", PyVal.num 1)] =
      .error .indexError ∧
    ∀ (name : String) (np : Option Nat) (kwargs : List (String × PyVal))
      (msg : String),
      get_scoring_function name np kwargs ≠ .error (.valueError msg) := by
  refine ⟨rfl, rfl, ?_⟩
  intro name np kwargs msg h
  by_cases h1 : name = "tanimoto"
  · subst h1
    by_cases h2 : np = some 0
    · subst h2
      simp [get_scoring_function, scoring_function_classes, SFClass.pyName,
        Singleprocessing_init] at h
    · simp [get_scoring_function, scoring_function_classes, SFClass.pyName,
        h2] at h
  · by_cases h3 : name = "activity_model"
    · subst h3
      by_cases h2 : np = some 0
      · subst h2
        simp [get_scoring_function, scoring_function_classes, SFClass.pyName,
          Singleprocessing_init] at h
      · simp [get_scoring_function, scoring_function_classes, SFClass.pyName,
          h2] at h
    · have h1' : "tanimoto" ≠ name := fun he => h1 he.symm
      have h3' : "activity_model" ≠ name := fun he => h3 he.symm
      simp [get_scoring_function, scoring_function_classes, SFClass.pyName,
        h1', h3'] at h

/-- C5: the single-process and parallel dispatchers do NOT return identical
arrays for every deterministic adapter and batch: with a deterministic
oracle scoring `"C1CC1"` as `1.0` (response line `"C1CC1 1.0"` per the
spec's subprocess protocol), the single-process path returns `[1.0]` while
the parallel path's worker writes `float("C1CC1 1.0".lstrip("C1CC1 "))`,
and `lstrip` — stripping a character set — also eats the leading `1` of the
score, writing `float(".0") = 0.0`: the parallel result is `[0.0]`. -/
theorem claim_dispatcher_mismatch :
    Singleprocessing_call (fun s => if s = "C1CC1" then 1 else 0) ["C1CC1"] =
      [1] ∧
    Multiprocessing_call
      (fun s => workerScore s
        (subprocessLine (fun t => if t = "C1CC1" then 1 else 0)
          (fun _ => "1.0") s))
      ["C1CC1"] [Ev.round [0], Ev.complete 0] = MPResult.ok [0] ∧
    ([0] : List Rat) ≠ [1] := by
  refine ⟨rfl, rfl, by decide⟩

/-- C6: `Worker.__call__` writes `0.0` for the sentinel, for a timeout, and
for a line matching neither pattern (which leaves `expect` waiting until
timeout), without propagating an error; and for a matched response whose
descriptor's characters are disjoint from the score's leading digits the
parsed score is written — but for the matched response `"C1CC1 1.0"` the
character-set `lstrip` strips the score's leading `1` and `0.0` is written
instead of the line's score `1.0`, refuting the matched-case clause. -/
theorem claim_worker_protocol :
    Worker_call "CCO" (.line "None") 0 [9] = .ok [0] ∧
    Worker_call "CCO" .timeout 0 [9] = .ok [0] ∧
    Worker_call "CCO" (.line "garbage") 0 [9] = .ok [0] ∧
    Worker_call "CCO" (.line "CCO 0.95") 0 [9] = .ok [mkRat 19 20] ∧
    Worker_call "C1CC1" (.line "C1CC1 1.0") 0 [9] = .ok [0] := by
  refine ⟨rfl, rfl, rfl, rfl, rfl⟩

/-- C7 (as written, refuted): a keyword override whose key is not a
recognized configuration key of the selected adapter class does not make the
factory fail — `get_scoring_function` succeeds and silently ignores it. -/
theorem claim_override_counterexample :
    get_scoring_function "tanimoto" (some 4) [("bogus_key", PyVal.num 5)] =
      Except.ok (Dispatcher.multi "tanimoto" (some 4) defaultConfig) := rfl

/-- C7 (amended): a keyword override whose key is recognized by neither
registered adapter class is silently ignored: the factory call succeeds
(here on the parallel path, `num_processes ≠ 0`) and the class-level
configuration is left exactly at its defaults. -/
theorem claim_override_ignored (np : Option Nat) (key : String) (v : PyVal)
    (hk1 : key ∉ SFClass.tanimoto.allowedKwargs)
    (hk2 : key ∉ SFClass.activity_model.allowedKwargs)
    (hnp : np ≠ some 0) :
    get_scoring_function "tanimoto" np [(key, v)] =
      Except.ok (Dispatcher.multi "tanimoto" np defaultConfig) ∧
    get_scoring_function "activity_model" np [(key, v)] =
      Except.ok (Dispatcher.multi "activity_model" np defaultConfig) := by
  constructor
  · simp [get_scoring_function, scoring_function_classes, SFClass.pyName,
      applyKwargs, hk1, hnp]
  · simp [get_scoring_function, scoring_function_classes, SFClass.pyName,
      applyKwargs, hk2, hnp]

theorem claim_override_ignored_witness :
    ("bogus_key" ∉ SFClass.tanimoto.allowedKwargs) ∧
    ("bogus_key" ∉ SFClass.activity_model.allowedKwargs) ∧
    ((some 2 : Option Nat) ≠ some 0) ∧
    get_scoring_function "tanimoto" (some 2) [("bogus_key", PyVal.num 5)] =
      Except.ok (Dispatcher.multi "tanimoto" (some 2) defaultConfig) := by
  refine ⟨by decide, by decide, by decide, ?_⟩
  exact (claim_override_ignored (some 2) "bogus_key" (PyVal.num 5)
    (by decide) (by decide) (by decide)).1

/-- C8: for any descriptor the chemistry layer fails to parse
(`Chem.MolFromSmiles` yields nothing), each of the three adapters —
`tanimoto` (with its query fingerprint present), `logP`, and
`activity_model` — produces exactly `0.0` for that descriptor. -/
theorem claim_unparsable_zero {Mol FP : Type} (C : ChemOracle Mol FP) (q : FP)
    (k : Rat) (clf : List Int → Rat) (smiles : List String) (i : Nat)
    (s : String) (hs : smiles[i]? = some s)
    (hnone : C.molFromSmiles s = none) :
    (tanimoto_call C ⟨some q, k⟩ smiles).toOption.bind (fun r => r[i]?) =
      some 0 ∧
    (logP_call C smiles)[i]? = some 0 ∧
    activity_model_call C clf s = 0 := by
  have hparse : (smiles.map C.molFromSmiles)[i]? = some none := by
    rw [List.getElem?_map, hs]
    simp [hnone]
  refine ⟨?_, ?_, ?_⟩
  · rw [tanimoto_call, tanimoto_go_some]
    show ((smiles.map C.molFromSmiles).map (tanimoto_mol_score C q k))[i]? =
      some 0
    rw [List.getElem?_map, hparse]
    rfl
  · rw [logP_call, List.getElem?_map, hparse]
    rfl
  · simp [activity_model_call, hnone]

/-- A chemistry layer on which no descriptor parses, used as a concrete
instantiation. -/
def chemNoParse : ChemOracle Unit Unit :=
  ⟨fun _ => none, fun _ _ => (), fun _ _ => 0, fun _ => 0, fun _ => []⟩

theorem claim_unparsable_zero_witness :
    ((["%%"] : List String)[0]? = some "%%") ∧
    chemNoParse.molFromSmiles "%%" = none ∧
    ((tanimoto_call chemNoParse ⟨some (), 1⟩ ["%%"]).toOption.bind
        (fun r => r[0]?) = some 0 ∧
      (logP_call chemNoParse ["%%"])[0]? = some 0 ∧
      activity_model_call chemNoParse (fun _ => 1) "%%" = 0) := by
  refine ⟨rfl, rfl, ?_⟩
  exact claim_unparsable_zero chemNoParse () 1 (fun _ => 1) ["%%"] 0 "%%" rfl rfl

/-- C9: the factory's registered adapter set is exactly
`[tanimoto, activity_model]`, and for every `num_processes` and every set of
overrides, `get_scoring_function "logP" ...` raises (an `IndexError`, from
the empty selection), so the `logP` adapter can never be obtained through
the factory. -/
theorem claim_logP_unobtainable :
    scoring_function_classes.map SFClass.pyName =
      ["tanimoto", "activity_model"] ∧
    ∀ (np : Option Nat) (kwargs : List (String × PyVal)),
      get_scoring_function "logP" np kwargs = .error .indexError := by
  refine ⟨rfl, ?_⟩
  intro np kwargs
  rfl

/-- C10: constructing `tanimoto` with a query-structure name outside its
fixed eight-entry catalog does not raise — `__init__` returns with
`query_fp` unassigned — and every subsequent call of that instance on a
batch containing a parsable descriptor raises `AttributeError` instead of
returning scores. -/
theorem claim_tanimoto_unknown_query {Mol FP : Type} (C : ChemOracle Mol FP)
    (k : Rat) (name : String) (hname : structuresGet name = none) :
    structures.length = 8 ∧
    tanimoto_init C k name = .ok ⟨none, k⟩ ∧
    ∀ (smiles : List String) (s : String), s ∈ smiles →
      (C.molFromSmiles s).isSome = true →
      tanimoto_call C ⟨none, k⟩ smiles = .error .attributeError := by
  refine ⟨rfl, ?_, ?_⟩
  · unfold tanimoto_init
    rw [hname]
  · intro smiles s hmem hsome
    unfold tanimoto_call
    refine tanimoto_go_err C k _ ⟨C.molFromSmiles s, ?_, hsome⟩
    exact List.mem_map_of_mem _ hmem

/-- A chemistry layer on which exactly the descriptor `"CC"` parses, used as
a concrete instantiation. -/
def chemParseCC : ChemOracle Unit Unit :=
  ⟨fun s => if s = "CC" then some () else none, fun _ _ => (), fun _ _ => 0,
    fun _ => 0, fun _ => []⟩

theorem claim_tanimoto_unknown_query_witness :
    structuresGet "NotADrug" = none ∧
    (tanimoto_init chemParseCC 1 "NotADrug" =
        Except.ok (⟨none, 1⟩ : TanimotoState Unit) ∧
      tanimoto_call chemParseCC ⟨none, 1⟩ ["CC"] =
        Except.error PyError.attributeError) := by
  refine ⟨rfl, ?_, ?_⟩
  · exact (claim_tanimoto_unknown_query chemParseCC 1 "NotADrug" rfl).2.1
  · exact (claim_tanimoto_unknown_query chemParseCC 1 "NotADrug" rfl).2.2
      ["CC"] "CC" (List.mem_cons_self _ _) rfl
